import Mathlib

/-!
Shallow embedding of `src/emacspeak.py` (an NVDA Emacspeak server) and
verification of its protocol parser / command dispatcher.

The `Emacspeaker` class holds three pieces of mutable state:
  `_state`  -- a dict with (at most) the keys `rate_offset` and `character_scale`,
  `_header` -- a list of speech commands prepended to every speech submission,
  `_queue`  -- a deque of pending speech items.
The speech backend (the NVDA `speech` module and `versionInfo`) is an external
collaborator; we model it as an opaque record of parameters, and each backend
call a handler makes is recorded in an output event list.  A Python exception
raised by a handler is modelled as an `Option Err` in the handler's result
(the state returned alongside it is the state at the moment of the raise,
matching Python's in-place mutation semantics).
-/

set_option autoImplicit false

namespace Emacspeak

/-- Exact decimal value produced by Python's `float()` on the wire arguments
(sign, integer-part value, fraction-part value, number of fraction digits).
The server never computes with these values, only stores and forwards them,
so an exact decimal model is faithful; exponent/inf/nan spellings are not
modelled. -/
structure PyFloat where
  neg : Bool
  ip : Nat
  fp : Nat
  fl : Nat
  deriving DecidableEq, Repr

/-- Speech-sequence items handed to the NVDA speech backend: raw text,
`RateCommand(offset)`, `RateCommand(multiplier=m)`, `EndUtteranceCommand()`,
and `BeepCommand(duration, frequency)`. -/
inductive SpeechItem where
  | text (s : String)
  | rate (offset : Int)
  | rateMul (m : PyFloat)
  | endUtterance
  | beep (dur : PyFloat) (freq : Int)
  deriving DecidableEq, Repr

/-- Calls the server makes into the speech backend, in order.  Every
`speech.speak` in the source passes `priority=SpeechPriority.NOW`, so the
priority carries no information and is omitted. -/
inductive Event where
  | speak (items : List SpeechItem)
  | cancel
  | pause (b : Bool)
  deriving DecidableEq, Repr

/-- Python exceptions the handlers can raise. -/
inductive Err where
  | valueError
  | typeError
  | indexError
  deriving DecidableEq, Repr

/-- The opaque speech backend: `speech.RateCommand().newValue` (the default
rate), `versionInfo.version`, and `speech.getSpellingSpeech`. -/
structure Backend where
  defaultRate : Int
  nvdaVersion : String
  spelling : String → List SpeechItem

/-- The `Emacspeaker` instance state: the `_state` dict (which only ever holds
the keys `rate_offset` and `character_scale`, so it is modelled as two
`Option` fields), the `_header` list and the `_queue` deque. -/
structure EState where
  rate_offset : Option Int
  character_scale : Option PyFloat
  header : List SpeechItem
  queue : List SpeechItem
  deriving DecidableEq, Repr

/-- The freshly constructed server state (`__init__`). -/
def initState : EState := ⟨none, none, [], []⟩

/-- Result of running one handler: the state after the call, the backend
calls made (in order), and the exception raised, if any. -/
structure Outcome where
  state : EState
  calls : List Event
  err : Option Err
  deriving DecidableEq, Repr

/-- Python `" ".join(args)` / `"".join(args)`. -/
def pyJoin (sep : String) : List String → String
  | [] => ""
  | [a] => a
  | a :: rest => a ++ sep ++ pyJoin sep rest

/-- Python `str.strip()`: drop leading and trailing whitespace. -/
def stripChars (l : List Char) : List Char :=
  ((l.dropWhile Char.isWhitespace).reverse.dropWhile Char.isWhitespace).reverse

/-- Python `str.split(" ")`: split on every single space, keeping empty
pieces; the empty string yields `[[]]`. -/
def splitSp (l : List Char) : List (List Char) :=
  l.foldr
    (fun c acc =>
      if c = ' ' then [] :: acc
      else
        match acc with
        | [] => [[c]]
        | a :: as => (c :: a) :: as)
    [[]]

/-- Accumulate a decimal digit string; `none` on any non-digit. -/
def digitsVal (acc : Nat) : List Char → Option Nat
  | [] => some acc
  | c :: rest => if c.isDigit then digitsVal (acc * 10 + (c.toNat - 48)) rest else none

/-- A nonempty all-digit string, as a `Nat`. -/
def digitsNonempty : List Char → Option Nat
  | [] => none
  | l => digitsVal 0 l

/-- Split at the first `.`, reporting whether one was present. -/
def splitDot : List Char → List Char × Option (List Char)
  | [] => ([], none)
  | c :: rest =>
    if c = '.' then ([], some rest)
    else
      let p := splitDot rest
      (c :: p.1, p.2)

/-- Unsigned part of Python `float()`: `digits`, `digits.`, `.digits` or
`digits.digits`; result is (integer part, fraction part, fraction length). -/
def parseUFloat (l : List Char) : Option (Nat × Nat × Nat) :=
  match splitDot l with
  | (ipCs, none) => (digitsNonempty ipCs).map (fun v => (v, 0, 0))
  | (ipCs, some fpCs) =>
    if ipCs = [] ∧ fpCs = [] then none
    else
      match digitsVal 0 ipCs, digitsVal 0 fpCs with
      | some i, some f => some (i, f, fpCs.length)
      | _, _ => none

/-- Python `float(s)` on the decimal spellings used by the protocol:
optional surrounding whitespace, optional sign, digits with optional
fraction.  `none` models the `ValueError` raise. -/
def parsePyFloat (s : String) : Option PyFloat :=
  match stripChars s.data with
  | '-' :: rest => (parseUFloat rest).map (fun p => ⟨true, p.1, p.2.1, p.2.2⟩)
  | '+' :: rest => (parseUFloat rest).map (fun p => ⟨false, p.1, p.2.1, p.2.2⟩)
  | l => (parseUFloat l).map (fun p => ⟨false, p.1, p.2.1, p.2.2⟩)

/-- Python `int(s)`: optional surrounding whitespace, optional sign, a
nonempty digit string.  `none` models the `ValueError` raise. -/
def parsePyInt (s : String) : Option Int :=
  match stripChars s.data with
  | '-' :: rest => (digitsNonempty rest).map (fun n => -(n : Int))
  | '+' :: rest => (digitsNonempty rest).map (fun n => (n : Int))
  | l => (digitsNonempty l).map (fun n => (n : Int))

/-- Strip exactly one leading `{` (the `t[1].startswith("{")` branch). -/
def stripLeadBrace : List Char → List Char
  | '{' :: rest => rest
  | l => l

/-- Strip exactly one trailing `}` (the `t[-1].endswith("}")` branch). -/
def stripTrailBrace (l : List Char) : List Char :=
  if l.getLast? = some '}' then l.dropLast else l

/-- The `_buildHeader` method: clear the header, then append a single
`RateCommand(rate_offset)` when `rate_offset` is in `_state`. -/
def buildHeader (st : EState) : EState :=
  { st with
    header :=
      match st.rate_offset with
      | some o => [SpeechItem.rate o]
      | none => [] }

/-- The `q` method: append the joined text and an `EndUtteranceCommand` to
the queue. -/
def q (args : List String) (st : EState) : Outcome :=
  ⟨{ st with queue := st.queue ++ [SpeechItem.text (pyJoin " " args), SpeechItem.endUtterance] },
    [], none⟩

/-- The `d` method: speak `_header ++ _queue` immediately, then clear the
queue.  (`res` starts as a fresh list here, so the header is not aliased.) -/
def d (_args : List String) (st : EState) : Outcome :=
  ⟨{ st with queue := [] }, [Event.speak (st.header ++ st.queue)], none⟩

/-- The `l` method: build header + optional character-scale rate multiplier
+ spelling expansion of the joined args, cancel backend speech, then speak. -/
def l (b : Backend) (args : List String) (st : EState) : Outcome :=
  let res :=
    st.header ++
      (match st.character_scale with
        | some m => [SpeechItem.rateMul m]
        | none => []) ++
      b.spelling (pyJoin "" args)
  ⟨st, [Event.cancel, Event.speak res], none⟩

/-- The `pause` method: `speech.pauseSpeech(True)`. -/
def pause (_args : List String) (st : EState) : Outcome :=
  ⟨st, [Event.pause true], none⟩

/-- The `resume` method: `speech.pauseSpeech(False)`. -/
def resume (_args : List String) (st : EState) : Outcome :=
  ⟨st, [Event.pause false], none⟩

/-- The `s` method: cancel backend speech, then clear the internal queue. -/
def s (_args : List String) (st : EState) : Outcome :=
  ⟨{ st with queue := [] }, [Event.cancel], none⟩

/-- The `t` method: with exactly two arguments, append
`BeepCommand(float(args[0]), int(args[1]))`; otherwise return silently.
`float` is evaluated before `int`, and a failed parse raises before the
append mutates the queue. -/
def t (args : List String) (st : EState) : Outcome :=
  match args with
  | [a0, a1] =>
    (match parsePyFloat a0 with
      | none => ⟨st, [], some Err.valueError⟩
      | some dv =>
        match parsePyInt a1 with
        | none => ⟨st, [], some Err.valueError⟩
        | some fv => ⟨{ st with queue := st.queue ++ [SpeechItem.beep dv fv] }, [], none⟩)
  | _ => ⟨st, [], none⟩

/-- The `setRate` method: `value = int(args[0])` (raising on a bad parse,
before any mutation), then store `value - speech.RateCommand().newValue` as
`rate_offset` and rebuild the header. -/
def setRate (b : Backend) (args : List String) (st : EState) : Outcome :=
  match args with
  | [] => ⟨st, [], some Err.indexError⟩
  | a :: _ =>
    match parsePyInt a with
    | none => ⟨st, [], some Err.valueError⟩
    | some v => ⟨buildHeader { st with rate_offset := some (v - b.defaultRate) }, [], none⟩

/-- The `setCharacterScale` method: store `float(args[0])` as
`character_scale` (raising on a bad parse, before the store); the header is
not rebuilt. -/
def setCharacterScale (_b : Backend) (args : List String) (st : EState) : Outcome :=
  match args with
  | [] => ⟨st, [], some Err.indexError⟩
  | a :: _ =>
    match parsePyFloat a with
    | none => ⟨st, [], some Err.valueError⟩
    | some m => ⟨{ st with character_scale := some m }, [], none⟩

/-- The `version` method.  In the source, `res = self._header` makes `res`
an alias of the header list, so `res.append("NVDA " + versionInfo.version)`
mutates `_header` itself before speaking it. -/
def version (b : Backend) (_args : List String) (st : EState) : Outcome :=
  let res := st.header ++ [SpeechItem.text ("NVDA " ++ b.nvdaVersion)]
  ⟨{ st with header := res }, [Event.speak res], none⟩

/-- The body of the `reset` method: clear `_state` and rebuild the header.
Note `reset` is declared without an `args` parameter; see `cmdMap`. -/
def reset (st : EState) : EState :=
  buildHeader { st with rate_offset := none, character_scale := none }

/-- The entry `functools.partial(speech.speak, priority=NOW)` registered for
`tts_saytext`: the argument list itself is passed to `speech.speak`. -/
def sayText (args : List String) (st : EState) : Outcome :=
  ⟨st, [Event.speak (args.map SpeechItem.text)], none⟩

/-- The names of the twelve commands registered in `_cmdMap`. -/
def cmdNames : List String :=
  ["tts_saytext", "q", "d", "l", "tts_pause", "tts_resume", "s", "t",
    "tts_set_speech_rate", "tts_set_character_scale", "version", "tts_reset"]

/-- The `_cmdMap` dispatch table.  Every entry is called with the argument
list `t[1:]`.  The `reset` method takes no parameter besides `self`, so the
call `self._cmdMap["tts_reset"](t[1:])` raises
`TypeError: reset() takes 1 positional argument but 2 were given` before the
body of `reset` runs. -/
def cmdMap (b : Backend) (name : String) :
    Option (List String → EState → Outcome) :=
  match name with
  | "tts_saytext" => some sayText
  | "q" => some q
  | "d" => some d
  | "l" => some (l b)
  | "tts_pause" => some pause
  | "tts_resume" => some resume
  | "s" => some s
  | "t" => some t
  | "tts_set_speech_rate" => some (setRate b)
  | "tts_set_character_scale" => some (setCharacterScale b)
  | "version" => some (version b)
  | "tts_reset" => some (fun _ st => ⟨st, [], some Err.typeError⟩)
  | _ => none

/-- Tokenization in `parseCommand`: strip, split on spaces, pad to two
tokens with `""`, strip one leading `{` from `t[1]` and one trailing `}`
from `t[-1]` (which has index `length - 1` since the list has ≥ 2 tokens). -/
def tokenize (cmd : String) : List String :=
  let t0 := splitSp (stripChars cmd.data)
  let t1 := if t0.length < 2 then t0 ++ [[]] else t0
  let t2 := t1.set 1 (stripLeadBrace (t1.getD 1 []))
  let t3 := t2.set (t2.length - 1) (stripTrailBrace (t2.getD (t2.length - 1) []))
  t3.map (fun cs => ⟨cs⟩)

/-- The `parseCommand` method: tokenize, then call `_cmdMap[t[0]](t[1:])`
when `t[0]` is a registered command, and do nothing otherwise. -/
def parseCommand (b : Backend) (cmd : String) (st : EState) : Outcome :=
  let toks := tokenize cmd
  match cmdMap b (toks.headD "") with
  | some h => h toks.tail st
  | none => ⟨st, [], none⟩

/-- A concrete backend used for closed evaluations: default rate 50,
version string "TEST", spelling expansion spelling each character as its
own text item. -/
def b0 : Backend :=
  ⟨50, "TEST", fun str => str.data.map (fun c => SpeechItem.text ⟨[c]⟩)⟩

/-- Apply `f` to the last element of a list, if any. -/
def modifyLast (f : List Char → List Char) : List (List Char) → List (List Char)
  | [] => []
  | [a] => [f a]
  | a :: b :: rest => a :: modifyLast f (b :: rest)

/-- Modelled from the spec: the Command Tokenizer contract of §4.1 — trim
whitespace, split on single spaces, pad to two tokens with an empty-string
token, strip one leading `{` from the first argument token, strip one
trailing `}` from the last token, output `(commandName, argumentTokens)`. -/
def tokenizeSpec (cmd : String) : String × List String :=
  let toks0 := splitSp (stripChars cmd.data)
  let toks := if toks0.length < 2 then toks0 ++ [[]] else toks0
  match toks with
  | [] => ("", [])
  | name :: args =>
    let args1 :=
      match args with
      | [] => []
      | a :: rest => stripLeadBrace a :: rest
    let args2 := modifyLast stripTrailBrace args1
    (⟨name⟩, args2.map (fun cs => ⟨cs⟩))

/-- `splitSp` never produces the empty list of tokens (even `""` splits to
`[[]]`, matching Python's `"".split(" ") == [""]`). -/
theorem splitSp_ne_nil (cs : List Char) : splitSp cs ≠ [] := by
  induction cs with
  | nil => simp [splitSp]
  | cons c rest _ =>
    simp only [splitSp, List.foldr_cons]
    by_cases hc : c = ' '
    · simp [hc]
    · simp only [if_neg hc]
      cases List.foldr _ _ rest with
      | nil => simp
      | cons a as => simp

/-- Writing to the last index of a nonempty list is `modifyLast`. -/
theorem set_last_eq_modifyLast (f : List Char → List Char) :
    ∀ (x : List Char) (ls : List (List Char)),
      (x :: ls).set ((x :: ls).length - 1) (f ((x :: ls).getD ((x :: ls).length - 1) [])) =
        modifyLast f (x :: ls)
  | x, [] => by simp [modifyLast]
  | x, y :: rest => by
    have ih := set_last_eq_modifyLast f y rest
    have hlen : (x :: y :: rest).length - 1 = ((y :: rest).length - 1) + 1 := by
      simp
    rw [hlen, List.set_cons_succ, List.getD_cons_succ, ih]
    rfl

end Emacspeak

namespace Emacspeak

/-- C1: the claim says the Header always equals the rebuild from Session
State and that `version` leaves it unchanged; the code violates this:
`res = self._header` aliases the header list, so `version` appends the
version string to the Header in place, after which the Header differs from
the rebuild (`_buildHeader` would yield `[]` here). -/
theorem version_breaks_header_invariant :
    (parseCommand b0 "version" initState).state.header = [SpeechItem.text "NVDA TEST"] ∧
    (buildHeader (parseCommand b0 "version" initState).state).header = [] ∧
    (parseCommand b0 "version" initState).state.header ≠
      (buildHeader (parseCommand b0 "version" initState).state).header := by
  decide

/-- C2: dispatching `tts_reset` (with an empty or a nonempty argument list)
raises `TypeError` — `reset` takes no `args` parameter but the dispatch
table calls every handler with one argument list — and leaves the state
unchanged, contradicting the claim that it clears the state without error. -/
theorem tts_reset_dispatch_raises (b : Backend) (st : EState) :
    parseCommand b "tts_reset" st = ⟨st, [], some Err.typeError⟩ ∧
    parseCommand b "tts_reset {foo}" st = ⟨st, [], some Err.typeError⟩ := by
  have h1 : tokenize "tts_reset" = ["tts_reset", ""] := by decide
  have h2 : tokenize "tts_reset {foo}" = ["tts_reset", "foo"] := by decide
  constructor
  · simp only [parseCommand, h1]
    rfl
  · simp only [parseCommand, h2]
    rfl

/-- C3: from every starting state, `q args` then `d` makes exactly one
backend speak call containing, in order, the Header items, the previously
queued items, the newly queued text and an end-of-utterance marker; the
queue is empty afterwards and no error is raised. -/
theorem q_then_d_submits_header_text_marker (st : EState) (args args2 : List String) :
    (q args st).err = none ∧ (q args st).calls = [] ∧
    (d args2 (q args st).state).err = none ∧
    (d args2 (q args st).state).calls =
      [Event.speak (st.header ++ st.queue ++
        [SpeechItem.text (pyJoin " " args), SpeechItem.endUtterance])] ∧
    (d args2 (q args st).state).state.queue = [] := by
  simp [q, d]

/-- C4: the tokenizer agrees with the spec's §4.1 contract on every input
line (trim, split on single spaces, pad to two tokens, strip one leading
`{` from the first argument token and one trailing `}` from the last token,
braces of interior tokens untouched), and on the spec's example
`q {hello world}` it yields the arguments `hello` and `world`. -/
theorem tokenizer_matches_spec :
    (∀ cmd : String, ((tokenize cmd).headD "", (tokenize cmd).tail) = tokenizeSpec cmd) ∧
    tokenize "q {hello world}" = ["q", "hello", "world"] := by
  constructor
  · intro cmd
    simp only [tokenize, tokenizeSpec]
    obtain ⟨a, b, rest, hpad⟩ : ∃ a b rest,
        (if (splitSp (stripChars cmd.data)).length < 2
          then splitSp (stripChars cmd.data) ++ [[]]
          else splitSp (stripChars cmd.data)) = a :: b :: rest := by
      have hne := splitSp_ne_nil (stripChars cmd.data)
      match h : splitSp (stripChars cmd.data), hne with
      | [x], _ => exact ⟨x, [], [], by simp [h]⟩
      | x :: y :: r, _ => exact ⟨x, y, r, by simp [h]⟩
    rw [hpad]
    simp only [List.getD_cons_succ, List.getD_cons_zero, List.set_cons_succ,
      List.set_cons_zero]
    rw [set_last_eq_modifyLast stripTrailBrace a (stripLeadBrace b :: rest)]
    simp [modifyLast]
  · decide

/-- C5: `d` clears the Speech Queue and leaves the Header exactly as it
was. -/
theorem d_clears_queue_preserves_header (args : List String) (st : EState) :
    (d args st).state.header = st.header ∧ (d args st).state.queue = [] := by
  simp [d]

/-- C6: after `setRate` parses its argument to `v`, the session state holds
`rate_offset = v - defaultRate`, the Header is exactly one rate entry with
that offset, and the submissions of a following `d`, `l` or `version` each
include that entry (it heads their spoken item list). -/
theorem setRate_sets_offset_and_header (b : Backend) (st : EState) (a : String)
    (rest args2 args3 args4 : List String) (v : Int)
    (h : parsePyInt a = some v) :
    (setRate b (a :: rest) st).err = none ∧
    (setRate b (a :: rest) st).state.rate_offset = some (v - b.defaultRate) ∧
    (setRate b (a :: rest) st).state.header = [SpeechItem.rate (v - b.defaultRate)] ∧
    (d args2 (setRate b (a :: rest) st).state).calls =
      [Event.speak (SpeechItem.rate (v - b.defaultRate) :: st.queue)] ∧
    (l b args3 (setRate b (a :: rest) st).state).calls =
      [Event.cancel,
        Event.speak (SpeechItem.rate (v - b.defaultRate) ::
          ((match st.character_scale with
            | some m => [SpeechItem.rateMul m]
            | none => []) ++ b.spelling (pyJoin "" args3)))] ∧
    (version b args4 (setRate b (a :: rest) st).state).calls =
      [Event.speak [SpeechItem.rate (v - b.defaultRate),
        SpeechItem.text ("NVDA " ++ b.nvdaVersion)]] := by
  simp [setRate, h, buildHeader, d, l, version]

/-- Witness for C6 at the spec's example rate 250 with the concrete backend
`b0` (default rate 50). -/
theorem setRate_sets_offset_and_header_witness :
    parsePyInt "250" = some 250 ∧
    ((setRate b0 ["250"] initState).err = none ∧
      (setRate b0 ["250"] initState).state.rate_offset = some (250 - b0.defaultRate) ∧
      (setRate b0 ["250"] initState).state.header =
        [SpeechItem.rate (250 - b0.defaultRate)] ∧
      (d [] (setRate b0 ["250"] initState).state).calls =
        [Event.speak (SpeechItem.rate (250 - b0.defaultRate) :: initState.queue)] ∧
      (l b0 [] (setRate b0 ["250"] initState).state).calls =
        [Event.cancel,
          Event.speak (SpeechItem.rate (250 - b0.defaultRate) ::
            ((match initState.character_scale with
              | some m => [SpeechItem.rateMul m]
              | none => []) ++ b0.spelling (pyJoin "" [])))] ∧
      (version b0 [] (setRate b0 ["250"] initState).state).calls =
        [Event.speak [SpeechItem.rate (250 - b0.defaultRate),
          SpeechItem.text ("NVDA " ++ b0.nvdaVersion)]]) :=
  ⟨by decide, setRate_sets_offset_and_header b0 initState "250" [] [] [] [] 250 (by decide)⟩

/-- C7: `s` makes exactly one backend call (a cancel, never a speak),
empties the queue, leaves the Header unchanged, and a `d` right after it
submits exactly the Header items. -/
theorem s_then_d_submits_only_header (args1 args2 : List String) (st : EState) :
    (s args1 st).calls = [Event.cancel] ∧
    (s args1 st).err = none ∧
    (s args1 st).state.queue = [] ∧
    (s args1 st).state.header = st.header ∧
    (d args2 (s args1 st).state).calls = [Event.speak st.header] ∧
    (d args2 (s args1 st).state).err = none := by
  simp [s, d]

/-- C8: `t` with an argument count other than 2 is a silent no-op (state,
header and queue unchanged, no backend call, no error); with exactly two
numerically parseable arguments it appends exactly one tone request
(duration, frequency) to the queue. -/
theorem t_arity_and_append (args : List String) (st : EState) (a0 a1 : String)
    (dv : PyFloat) (fv : Int) :
    (args.length ≠ 2 → t args st = ⟨st, [], none⟩) ∧
    (parsePyFloat a0 = some dv → parsePyInt a1 = some fv →
      t [a0, a1] st =
        ⟨{ st with queue := st.queue ++ [SpeechItem.beep dv fv] }, [], none⟩) := by
  constructor
  · intro hlen
    match args with
    | [] => rfl
    | [x] => rfl
    | [x, y] => exact absurd rfl hlen
    | x :: y :: z :: r => rfl
  · intro h0 h1
    simp [t, h0, h1]

/-- Witness for C8: `t 0.5` (wrong arity) is a no-op, `t 0.5 440` appends
one beep. -/
theorem t_arity_and_append_witness :
    ((["0.5"] : List String).length ≠ 2 ∧ t ["0.5"] initState = ⟨initState, [], none⟩) ∧
    (parsePyFloat "0.5" = some ⟨false, 0, 5, 1⟩ ∧ parsePyInt "440" = some 440 ∧
      t ["0.5", "440"] initState =
        ⟨{ initState with
            queue := initState.queue ++ [SpeechItem.beep ⟨false, 0, 5, 1⟩ 440] },
          [], none⟩) :=
  ⟨⟨by decide,
      (t_arity_and_append ["0.5"] initState "" "" ⟨false, 0, 0, 0⟩ 0).1 (by decide)⟩,
    ⟨by decide, by decide,
      (t_arity_and_append [] initState "0.5" "440" ⟨false, 0, 5, 1⟩ 440).2
        (by decide) (by decide)⟩⟩

/-- Helper for C9: a name outside the twelve registered command names is
not in the dispatch table. -/
theorem cmdMap_eq_none_of_not_mem (b : Backend) (name : String)
    (h : name ∉ cmdNames) : cmdMap b name = none := by
  unfold cmdMap
  split
  all_goals first
    | rfl
    | exact absurd (by decide) h

/-- C9: a line whose command name is not one of the twelve names in the
dispatch table leaves the state (session state, header, queue) unchanged,
makes no backend call and raises no error. -/
theorem unknown_command_noop (b : Backend) (line : String) (st : EState)
    (h : (tokenize line).headD "" ∉ cmdNames) :
    parseCommand b line st = ⟨st, [], none⟩ := by
  simp only [parseCommand, cmdMap_eq_none_of_not_mem b _ h]

/-- Witness for C9 at the unknown command line `foo bar`. -/
theorem unknown_command_noop_witness :
    ((tokenize "foo bar").headD "" ∉ cmdNames) ∧
    parseCommand b0 "foo bar" initState = ⟨initState, [], none⟩ :=
  ⟨by decide, unknown_command_noop b0 "foo bar" initState (by decide)⟩

/-- C10: when the numeric parse fails, `setRate`, `setCharacterScale` and
`t` raise (`ValueError`) before any mutation: the returned state is exactly
the input state and no backend call was made. -/
theorem nonnumeric_parse_atomic (b : Backend) (a a1 : String) (rest : List String)
    (st : EState) (dv : PyFloat) :
    (parsePyInt a = none → setRate b (a :: rest) st = ⟨st, [], some Err.valueError⟩) ∧
    (parsePyFloat a = none →
      setCharacterScale b (a :: rest) st = ⟨st, [], some Err.valueError⟩) ∧
    (parsePyFloat a = none → t [a, a1] st = ⟨st, [], some Err.valueError⟩) ∧
    (parsePyFloat a = some dv → parsePyInt a1 = none →
      t [a, a1] st = ⟨st, [], some Err.valueError⟩) := by
  refine ⟨fun h => ?_, fun h => ?_, fun h => ?_, fun h h1 => ?_⟩
  · simp [setRate, h]
  · simp [setCharacterScale, h]
  · simp [t, h]
  · simp [t, h, h1]

/-- Witness for C10: `abc` fails both numeric parses, `0.5` parses as a
float while `xy` fails the int parse; each command returns the input state
with a `ValueError`. -/
theorem nonnumeric_parse_atomic_witness :
    (parsePyInt "abc" = none ∧
      setRate b0 ["abc"] initState = ⟨initState, [], some Err.valueError⟩) ∧
    (parsePyFloat "abc" = none ∧
      setCharacterScale b0 ["abc"] initState = ⟨initState, [], some Err.valueError⟩ ∧
      t ["abc", "5"] initState = ⟨initState, [], some Err.valueError⟩) ∧
    (parsePyFloat "0.5" = some ⟨false, 0, 5, 1⟩ ∧ parsePyInt "xy" = none ∧
      t ["0.5", "xy"] initState = ⟨initState, [], some Err.valueError⟩) :=
  ⟨⟨by decide,
      (nonnumeric_parse_atomic b0 "abc" "5" [] initState ⟨false, 0, 0, 0⟩).1 (by decide)⟩,
    ⟨by decide,
      (nonnumeric_parse_atomic b0 "abc" "5" [] initState ⟨false, 0, 0, 0⟩).2.1 (by decide),
      (nonnumeric_parse_atomic b0 "abc" "5" [] initState ⟨false, 0, 0, 0⟩).2.2.1 (by decide)⟩,
    ⟨by decide, by decide,
      (nonnumeric_parse_atomic b0 "0.5" "xy" [] initState ⟨false, 0, 5, 1⟩).2.2.2
        (by decide) (by decide)⟩⟩

end Emacspeak
